import Mathlib

/-!
# Binance futures client: candle decoding and transport

A shallow embedding of `futures_client.go` (package `binancefuturesclient`).

* Go functions returning `(value, error)` are embedded as functions returning a
  pair `(value, Option error)`; a Go `nil` pointer or `nil` error is `none`.
* A run that ends in a run-time panic (indexing a slice past its end) is the
  `Go.panic` outcome, distinct from every returned value.
* The Go standard library is not part of the repository. What the code calls of
  it (`strconv.ParseFloat`, the `int64` conversion of a `float64`, the `%v`
  rendering of a `float64`, the JSON scanner, URL validation) is collected in
  the structure `Lib` and every general theorem holds for all of its values.
  `refLib` is one concrete value, used to evaluate the code on explicit inputs.
-/

namespace BinanceFutures

set_option maxRecDepth 100000

/-! ## Data model -/

/-- The dynamic values `encoding/json` stores into an `interface{}`:
`nil`, `bool`, `float64`, `string`, `[]interface{}` and `map[string]interface{}`.
`F` is the carrier of `float64`. The entries of an object are kept in
increasing key order, the order in which `fmt` prints a map. -/
inductive JSON (F : Type) where
  | null
  | bool (b : Bool)
  | number (f : F)
  | string (s : String)
  | array (xs : List (JSON F))
  | object (kvs : List (String × JSON F))

/-- An instant of `time.Time`, as nanoseconds elapsed since the Unix epoch. -/
structure Time where
  nsec : Int
deriving DecidableEq, Repr

/-- The Go function `time.UnixMilli`: the instant `msec` milliseconds after the epoch. -/
def Time.UnixMilli (msec : Int) : Time := ⟨msec * 1000000⟩

/-- The errors the package builds or passes on, one constructor per origin. -/
inductive GoError (F : Type) where
  /-- `fmt.Errorf("couldn't parse time, %v", val)` -/
  | parseTime (val : JSON F)
  /-- `fmt.Errorf("couldn't parse float64, %v", val)` -/
  | parseFloatType (val : JSON F)
  /-- `fmt.Errorf("couldn't parse float64, %v, err: %v", val, err)` -/
  | parseFloatSyntax (val : JSON F) (err : String)
  /-- A `*json.SyntaxError` (or number conversion error) with its message. -/
  | jsonSyntax (msg : String)
  /-- A `*json.UnmarshalTypeError`: JSON `value` does not fit Go type `type`. -/
  | jsonType (value : String) (type : String)
  /-- An error produced by `net/http`, `net/url` or `io`, with its message. -/
  | transport (msg : String)

/-- Run-time panics of the Go runtime that the code can raise. -/
inductive Panic where
  /-- `runtime error: index out of range [index] with length length` -/
  | indexOutOfRange (index length : Nat)
deriving DecidableEq, Repr

/-- Outcome of running a Go function: it returns `v`, or the goroutine panics. -/
inductive Go (α : Type) where
  | ret (v : α)
  | panic (p : Panic)

/-- Sequencing of Go computations: a panic aborts what follows. -/
def Go.bind {α β : Type} (x : Go α) (f : α → Go β) : Go β :=
  match x with
  | .ret v => f v
  | .panic p => .panic p

/-- The standard-library operations the package depends on. -/
structure Lib (F : Type) where
  /-- `strconv.ParseFloat(s, 64)`: the value, or the message of the `*NumError`. -/
  ParseFloat : String → Except String F
  /-- The conversion `int64(f)` of a `float64`. -/
  toInt64 : F → Int
  /-- The `float64` constant `0.`. -/
  zero : F
  /-- The `%v` rendering of a `float64`. -/
  fmtFloat : F → String
  /-- The JSON scanner of `encoding/json` followed by the construction of the
  dynamic value: the value a text denotes, or the message of the error. -/
  jsonValue : String → Except String (JSON F)
  /-- The URL validation of `http.NewRequest`: the message of its error, if any. -/
  urlError : String → Option String

/-- The Go struct `Candle`, fields in declaration order. -/
structure Candle (F : Type) where
  Symbol : String
  OpenTime : Time
  CloseTime : Time
  OpenPrice : F
  ClosePrice : F
  HighPrice : F
  LowPrice : F
  Volume : F

variable {F : Type}

/-! ## `NewCandle` -/

/-- The index expression `item[i]` on a slice: panics when `i` is out of range. -/
def index (item : List (JSON F)) (i : Nat) : Go (JSON F) :=
  match item.get? i with
  | some v => .ret v
  | none => .panic (.indexOutOfRange i item.length)

/-- The closure `parseTimeFn` of `NewCandle`. `now` is what `time.Now()` reads. -/
def parseTimeFn (lib : Lib F) (now : Time) (val : JSON F) : Time × Option (GoError F) :=
  match val with
  | .number floatVal => (Time.UnixMilli (lib.toInt64 floatVal), none)
  | _ => (now, some (.parseTime val))

/-- The closure `parseFloatFn` of `NewCandle`. -/
def parseFloatFn (lib : Lib F) (val : JSON F) : F × Option (GoError F) :=
  match val with
  | .string stringVal =>
    match lib.ParseFloat stringVal with
    | .ok f => (f, none)
    | .error err => (lib.zero, some (.parseFloatSyntax val err))
  | _ => (lib.zero, some (.parseFloatType val))

/-- The Go function `NewCandle`. The fields are read in the order of the source:
positions 0, 6, 1, 4, 2, 3, 5. -/
def NewCandle (lib : Lib F) (now : Time) (symbol : String) (item : List (JSON F)) :
    Go (Option (Candle F) × Option (GoError F)) :=
  (index item 0).bind fun v0 =>
  match parseTimeFn lib now v0 with
  | (_, some err) => .ret (none, some err)
  | (openTime, none) =>
  (index item 6).bind fun v6 =>
  match parseTimeFn lib now v6 with
  | (_, some err) => .ret (none, some err)
  | (closeTime, none) =>
  (index item 1).bind fun v1 =>
  match parseFloatFn lib v1 with
  | (_, some err) => .ret (none, some err)
  | (openPrice, none) =>
  (index item 4).bind fun v4 =>
  match parseFloatFn lib v4 with
  | (_, some err) => .ret (none, some err)
  | (closePrice, none) =>
  (index item 2).bind fun v2 =>
  match parseFloatFn lib v2 with
  | (_, some err) => .ret (none, some err)
  | (highPrice, none) =>
  (index item 3).bind fun v3 =>
  match parseFloatFn lib v3 with
  | (_, some err) => .ret (none, some err)
  | (lowPrice, none) =>
  (index item 5).bind fun v5 =>
  match parseFloatFn lib v5 with
  | (_, some err) => .ret (none, some err)
  | (volume, none) =>
  .ret (some ⟨symbol, openTime, closeTime, openPrice, closePrice, highPrice, lowPrice, volume⟩,
    none)

/-! ## `encoding/json` on the two target types the package uses -/

/-- The name `encoding/json` gives the kind of a JSON value in an
`UnmarshalTypeError`. -/
def JSON.kind : JSON F → String
  | .null => "null"
  | .bool _ => "bool"
  | .number _ => "number"
  | .string _ => "string"
  | .array _ => "array"
  | .object _ => "object"

/-- Decoding of one element of the outer array into a `[]interface{}`: `null`
gives the nil slice, an array its elements, anything else a type error (the
element is left nil and decoding goes on). -/
def unmarshalRow (v : JSON F) : List (JSON F) × Option (GoError F) :=
  match v with
  | .null => ([], none)
  | .array xs => (xs, none)
  | _ => ([], some (.jsonType v.kind "[]interface {}"))

/-- The earliest error of a sequence of decoding steps, which is the one
`json.Unmarshal` reports. -/
def firstError : List (Option (GoError F)) → Option (GoError F)
  | [] => none
  | some e :: _ => some e
  | none :: rest => firstError rest

/-- The call `json.Unmarshal(data, &results)` with `results` a nil
`[][]interface{}`: the value left in `results` and the error returned. -/
def UnmarshalRows (lib : Lib F) (data : String) : List (List (JSON F)) × Option (GoError F) :=
  match lib.jsonValue data with
  | .error msg => ([], some (.jsonSyntax msg))
  | .ok .null => ([], none)
  | .ok (.array xs) =>
    ((xs.map unmarshalRow).map Prod.fst, firstError ((xs.map unmarshalRow).map Prod.snd))
  | .ok v => ([], some (.jsonType v.kind "[][]interface {}"))

/-- The call `json.Unmarshal(data, &errorString)` with `errorString` a `string`:
the error returned. A JSON string and JSON `null` are accepted. -/
def UnmarshalString (lib : Lib F) (data : String) : Option (GoError F) :=
  match lib.jsonValue data with
  | .error msg => some (.jsonSyntax msg)
  | .ok (.string _) => none
  | .ok .null => none
  | .ok v => some (.jsonType v.kind "string")

/-! ## Transport: `get` -/

/-- The parts of an `*http.Request` the package sets. -/
structure Request where
  Method : String
  URL : String
  Header : List (String × String)
  Body : String
deriving DecidableEq, Repr

/-- What the package observes of an `*http.Response`: the status code, what
`io.ReadAll(res.Body)` returns and what `res.Body.Close()` returns. -/
structure Response (F : Type) where
  StatusCode : Int
  readAll : String × Option (GoError F)
  closeErr : Option (GoError F)

/-- The Go struct `FuturesClient`. `HTTPClient` is the method `Do` of the
`*http.Client`; the `Logger` field is never read and is left out. -/
structure FuturesClient (F : Type) where
  APIKey : String
  SecretKey : String
  BaseURL : String
  HTTPClient : Request → Except (GoError F) (Response F)

/-- The Go function `NewFuturesClient`, with `http.DefaultClient` as parameter. -/
def NewFuturesClient (APIKey secretKey baseUrl : String)
    (defaultClient : Request → Except (GoError F) (Response F)) : FuturesClient F :=
  ⟨APIKey, secretKey, baseUrl, defaultClient⟩

/-- The bytes `textproto` allows in a header field name. -/
def validHeaderFieldByte (c : Char) : Bool :=
  c.isAlphanum || "!#$%&*+-.^_|~".toList.contains c || c.toNat = 39 || c.toNat = 96

/-- The letter-case pass of `CanonicalMIMEHeaderKey`: a letter that starts the
key or follows a hyphen is upper case, every other letter lower case. -/
def canonicalCase : Bool → List Char → List Char
  | _, [] => []
  | upper, c :: cs =>
    (if upper then c.toUpper else c.toLower) :: canonicalCase (c = '-') cs

/-- The Go function `textproto.CanonicalMIMEHeaderKey`, which `Header.Set`
applies to the key: a key with an invalid byte is left unchanged. -/
def CanonicalMIMEHeaderKey (s : String) : String :=
  if s.toList.all validHeaderFieldByte then String.mk (canonicalCase true s.toList) else s

/-- The Go method `Header.Set`: the value of the canonical key is replaced. -/
def Header.Set (h : List (String × String)) (key value : String) : List (String × String) :=
  h.filter (fun kv => kv.1 != CanonicalMIMEHeaderKey key) ++ [(CanonicalMIMEHeaderKey key, value)]

/-- One run of `get`: the two results, the request handed to the HTTP client
(if the run got that far), and how many response bodies were received and how
many were closed. -/
structure GetRun (F : Type) where
  data : String
  err : Option (GoError F)
  sent : Option Request
  opened : Nat
  closed : Nat

/-- The Go method `FuturesClient.get`. Byte slices are strings; the nil slice
and the empty slice are both `""`. The deferred function is registered only
after `io.ReadAll` has succeeded; when it runs it closes the body and, if the
function is returning no error, returns the error of `Close`. -/
def get (lib : Lib F) (fc : FuturesClient F) (path : String) : GetRun F :=
  let fullURL := fc.BaseURL ++ path
  match lib.urlError fullURL with
  | some msg => ⟨"", some (.transport msg), none, 0, 0⟩
  | none =>
  let header := Header.Set (Header.Set []
    "User-Agent" ("followmelistenme/binance-futures-client" ++ "/" ++ "0.0.1"))
    "X-MBX-APIKEY" fc.APIKey
  let req : Request := ⟨"GET", fullURL, header, ""⟩
  match fc.HTTPClient req with
  | .error err => ⟨"", some err, some req, 0, 0⟩
  | .ok res =>
  match res.readAll with
  | (_, some err) => ⟨"", some err, some req, 1, 0⟩
  | (data, none) =>
  if 400 ≤ res.StatusCode then
    match UnmarshalString lib data with
    | some err => ⟨"", some err, some req, 1, 1⟩
    | none => ⟨data, res.closeErr, some req, 1, 1⟩
  else ⟨data, res.closeErr, some req, 1, 1⟩

/-! ## `LoadCandles` -/

/-- The loop of `LoadCandles` that builds the query string; `params` lists the
entries of the map in the order the `range` loop visits them. -/
def queryString (params : List (String × String)) : String :=
  params.foldl (fun q kv => q ++ "&" ++ kv.1 ++ "=" ++ kv.2) ""

/-- The path `LoadCandles` requests:
`fmt.Sprintf("/fapi/v1/klines?symbol=%s%s", symbol, queryString)`. -/
def klinesPath (symbol : String) (params : List (String × String)) : String :=
  "/fapi/v1/klines?symbol=" ++ symbol ++ queryString params

/-- The loop of `LoadCandles` over the decoded rows, `candles` being the slice
built so far. The first error ends the loop with a nil slice. -/
def candlesLoop (lib : Lib F) (now : Time) (symbol : String) :
    List (List (JSON F)) → List (Option (Candle F)) →
    Go (Option (List (Option (Candle F))) × Option (GoError F))
  | [], candles => .ret (some candles, none)
  | item :: rest, candles =>
    (NewCandle lib now symbol item).bind fun r =>
    match r with
    | (_, some err) => .ret (none, some err)
    | (cndl, none) => candlesLoop lib now symbol rest (candles ++ [cndl])

/-- Lines 107 to 122 of `LoadCandles`: what it does with the bytes `data`. -/
def decodeCandles (lib : Lib F) (now : Time) (symbol : String) (data : String) :
    Go (Option (List (Option (Candle F))) × Option (GoError F)) :=
  match UnmarshalRows lib data with
  | (_, some err) => .ret (none, some err)
  | (results, none) => candlesLoop lib now symbol results []

/-- The Go method `FuturesClient.LoadCandles`. The error `get` returns is
assigned to the blank identifier. A `[]*Candle` is `none` when nil. -/
def LoadCandles (lib : Lib F) (now : Time) (fc : FuturesClient F) (symbol : String)
    (params : List (String × String)) :
    Go (Option (List (Option (Candle F))) × Option (GoError F)) :=
  let data := (get lib fc (klinesPath symbol params)).data
  decodeCandles lib now symbol data

/-! ## Rendering of errors -/

mutual
/-- The `%v` rendering by `fmt` of a dynamic JSON value. -/
def fmtV (lib : Lib F) : JSON F → String
  | .null => "<nil>"
  | .bool b => if b then "true" else "false"
  | .number f => lib.fmtFloat f
  | .string s => s
  | .array xs => "[" ++ fmtElems lib true xs ++ "]"
  | .object kvs => "map[" ++ fmtEntries lib true kvs ++ "]"
/-- The elements of a slice, separated by blanks. -/
def fmtElems (lib : Lib F) (first : Bool) : List (JSON F) → String
  | [] => ""
  | x :: rest => (if first then "" else " ") ++ fmtV lib x ++ fmtElems lib false rest
/-- The entries of a map as `key:value`, separated by blanks. -/
def fmtEntries (lib : Lib F) (first : Bool) : List (String × JSON F) → String
  | [] => ""
  | (k, x) :: rest =>
    (if first then "" else " ") ++ k ++ ":" ++ fmtV lib x ++ fmtEntries lib false rest
end

/-- The Go method `Error()`: the text of an error. -/
def GoError.Error (lib : Lib F) : GoError F → String
  | .parseTime val => "couldn't parse time, " ++ fmtV lib val
  | .parseFloatType val => "couldn't parse float64, " ++ fmtV lib val
  | .parseFloatSyntax val err => "couldn't parse float64, " ++ fmtV lib val ++ ", err: " ++ err
  | .jsonSyntax msg => msg
  | .jsonType value type =>
    "json: cannot unmarshal " ++ value ++ " into Go value of type " ++ type
  | .transport msg => msg

/-- Whether the characters `pat` occur consecutively somewhere in `cs`. -/
def occursIn (pat : List Char) : List Char → Bool
  | [] => pat.isEmpty
  | c :: cs => pat.isPrefixOf (c :: cs) || occursIn pat cs

/-- An error text references row index `i` when the decimal numeral of `i`
occurs in it. -/
def referencesRow (text : String) (i : Nat) : Bool :=
  occursIn (toString i).toList text.toList

/-! ## A reference library

`float64` values are finite decimals `mant / 10 ^ scale`, kept normalised (no
trailing zero in `mant` unless `scale = 0`). The reference `ParseFloat` reads
plain decimal literals (an optional sign, digits, an optional fraction); the
reference JSON scanner reads JSON texts whose numbers have no exponent and
whose strings have no escape sequence. Only such texts are evaluated below. -/

/-- A finite decimal `mant / 10 ^ scale`. -/
structure Decimal where
  mant : Int
  scale : Nat
deriving DecidableEq, Repr

/-- Removal of trailing zeros. -/
def Decimal.norm : Int → Nat → Decimal
  | m, 0 => ⟨m, 0⟩
  | m, k + 1 => if m % 10 = 0 then Decimal.norm (m / 10) k else ⟨m, k + 1⟩

/-- The value of a run of decimal digits, continuing from `acc`; `none` if a
character is not a digit. -/
def digitsValue : List Char → Nat → Option Nat
  | [], acc => some acc
  | c :: cs, acc => if c.isDigit then digitsValue cs (acc * 10 + (c.toNat - 48)) else none

/-- The decimal denoted by digits `ip`, then optionally a point and digits `fp`. -/
def decimalOfDigits (neg : Bool) (ip fp : List Char) : Option Decimal :=
  match digitsValue (ip ++ fp) 0 with
  | some n => some (Decimal.norm (if neg then -(n : Int) else (n : Int)) fp.length)
  | none => none

/-- Reading of an unsigned decimal literal: digits, optionally a point and digits,
with at least one digit on each side of a point that is present. -/
def unsignedDecimal (neg : Bool) (body : List Char) : Option Decimal :=
  let ip := body.takeWhile (fun c => c != '.')
  let tail := body.dropWhile (fun c => c != '.')
  match tail with
  | [] => if ip.isEmpty then none else decimalOfDigits neg ip []
  | _ :: fp => if ip.isEmpty && fp.isEmpty then none else decimalOfDigits neg ip fp

/-- The reference `strconv.ParseFloat` on plain decimal literals. -/
def refParseFloat (s : String) : Except String Decimal :=
  let r := match s.toList with
    | '-' :: body => unsignedDecimal true body
    | '+' :: body => unsignedDecimal false body
    | body => unsignedDecimal false body
  match r with
  | some d => .ok d
  | none => .error ("strconv.ParseFloat: parsing \"" ++ s ++ "\": invalid syntax")

/-- The reference `int64(f)`: truncation toward zero; a value outside the range
of `int64` converts to the least `int64`, as on amd64. -/
def refToInt64 (d : Decimal) : Int :=
  let t := Int.tdiv d.mant (10 ^ d.scale)
  if -(2 ^ 63) ≤ t ∧ t < 2 ^ 63 then t else -(2 ^ 63)

/-- The reference `%v` of a `float64`: the shortest `%g` form, with an exponent
when the decimal exponent is below -4 or at least 6. -/
def refFmtFloat (d : Decimal) : String :=
  if d.mant = 0 then "0" else
  let all := Nat.toDigits 10 d.mant.natAbs
  let ds := (all.reverse.dropWhile (fun c => c = '0')).reverse
  let dp : Int := (all.length : Int) - (d.scale : Int)
  let exp : Int := dp - 1
  let sign := if d.mant < 0 then "-" else ""
  if exp < -4 ∨ 6 ≤ exp then
    let frac := ds.drop 1
    let e := toString exp.natAbs
    sign ++ String.mk (ds.take 1) ++ (if frac.isEmpty then "" else "." ++ String.mk frac)
      ++ "e" ++ (if exp < 0 then "-" else "+") ++ (if exp.natAbs < 10 then "0" else "") ++ e
  else if dp ≤ 0 then
    sign ++ "0." ++ String.mk (List.replicate (-dp).toNat '0' ++ ds)
  else
    let k := dp.toNat
    let fp := ds.drop k
    sign ++ String.mk (ds.take k ++ List.replicate (k - ds.length) '0')
      ++ (if fp.isEmpty then "" else "." ++ String.mk fp)

/-- Removal of leading JSON white space. -/
def skipWs : List Char → List Char
  | [] => []
  | c :: cs => if c = ' ' ∨ c = '\n' ∨ c = '\t' ∨ c = '\r' then skipWs cs else c :: cs

/-- The characters of a JSON string up to its closing quote, and what follows
the quote; `none` on an unterminated string, a control character or a backslash. -/
def scanString : List Char → List Char → Option (String × List Char)
  | [], _ => none
  | c :: cs, acc =>
    if c = '"' then some (String.mk acc.reverse, cs)
    else if c = '\\' ∨ c.toNat < 32 then none
    else scanString cs (c :: acc)

/-- The longest prefix of characters that can belong to a JSON number. -/
def numberChars (cs : List Char) : List Char :=
  cs.takeWhile (fun c => c.isDigit || c = '-' || c = '.')

/-- A JSON number literal without exponent: an optional minus sign, an integer
part without superfluous leading zero, an optional fraction. -/
def scanNumber (lit : List Char) : Option Decimal :=
  let neg := lit.head? = some '-'
  let body := if neg then lit.drop 1 else lit
  let ip := body.takeWhile (fun c => c != '.')
  if ip.isEmpty ∨ (ip.head? = some '0' ∧ 1 < ip.length) then none
  else if body.dropWhile (fun c => c != '.') = ['.'] then none
  else unsignedDecimal neg body

/-- The order of map keys: character by character, a proper prefix first. -/
def keyLess : List Char → List Char → Bool
  | _, [] => false
  | [], _ :: _ => true
  | a :: as, b :: bs => decide (a.toNat < b.toNat) || (decide (a.toNat = b.toNat) && keyLess as bs)

/-- Insertion of an entry into a key-sorted list. An entry with an equal key
that is already present stands later in the text and is kept, as a later
duplicate key replaces an earlier one in a Go map. -/
def insertEntry (k : String) (v : JSON Decimal) :
    List (String × JSON Decimal) → List (String × JSON Decimal)
  | [] => [(k, v)]
  | (k0, v0) :: rest =>
    if keyLess k.toList k0.toList then (k, v) :: (k0, v0) :: rest
    else if k = k0 then (k0, v0) :: rest
    else (k0, v0) :: insertEntry k v rest

mutual
/-- One JSON value at the head of the input (after white space), and the rest. -/
def scanValue : Nat → List Char → Option (JSON Decimal × List Char)
  | 0, _ => none
  | fuel + 1, cs =>
    match skipWs cs with
    | 'n' :: 'u' :: 'l' :: 'l' :: rest => some (.null, rest)
    | 't' :: 'r' :: 'u' :: 'e' :: rest => some (.bool true, rest)
    | 'f' :: 'a' :: 'l' :: 's' :: 'e' :: rest => some (.bool false, rest)
    | '"' :: rest =>
      match scanString rest [] with
      | some (s, rest) => some (.string s, rest)
      | none => none
    | '[' :: rest =>
      match skipWs rest with
      | ']' :: rest => some (.array [], rest)
      | _ =>
        match scanElems fuel rest with
        | some (xs, rest) => some (.array xs, rest)
        | none => none
    | '\x7b' :: rest =>
      match skipWs rest with
      | '\x7d' :: rest => some (.object [], rest)
      | _ =>
        match scanMembers fuel rest with
        | some (kvs, rest) => some (.object kvs, rest)
        | none => none
    | other =>
      match scanNumber (numberChars other) with
      | some d => some (.number d, other.drop (numberChars other).length)
      | none => none
/-- The elements of a non-empty array after its opening bracket, up to and
including the closing bracket. -/
def scanElems : Nat → List Char → Option (List (JSON Decimal) × List Char)
  | 0, _ => none
  | fuel + 1, cs =>
    match scanValue fuel cs with
    | none => none
    | some (x, rest) =>
      match skipWs rest with
      | ']' :: rest => some ([x], rest)
      | ',' :: rest =>
        match scanElems fuel rest with
        | some (xs, rest) => some (x :: xs, rest)
        | none => none
      | _ => none
/-- The members of a non-empty object after its opening brace, up to and
including the closing brace. -/
def scanMembers : Nat → List Char → Option (List (String × JSON Decimal) × List Char)
  | 0, _ => none
  | fuel + 1, cs =>
    match skipWs cs with
    | '"' :: rest =>
      match scanString rest [] with
      | none => none
      | some (k, rest) =>
        match skipWs rest with
        | ':' :: rest =>
          match scanValue fuel rest with
          | none => none
          | some (x, rest) =>
            match skipWs rest with
            | '\x7d' :: rest => some ([(k, x)], rest)
            | ',' :: rest =>
              match scanMembers fuel rest with
              | some (kvs, rest) => some (insertEntry k x kvs, rest)
              | none => none
            | _ => none
        | _ => none
    | _ => none
end

/-- The reference JSON scanner: one value surrounded by white space. The fuel
is one more than the length of the text: every recursive call follows the
consumption of at least one character. -/
def refJsonValue (s : String) : Except String (JSON Decimal) :=
  if (skipWs s.toList).isEmpty then .error "unexpected end of JSON input" else
  match scanValue (s.length + 1) s.toList with
  | some (v, rest) =>
    if (skipWs rest).isEmpty then .ok v else .error "invalid character after top-level value"
  | none => .error "invalid character in JSON text"

/-- The reference URL validation: `net/url` rejects a URL with an ASCII control
character. -/
def refUrlError (url : String) : Option String :=
  if url.toList.any (fun c => c.toNat < 32 ∨ c.toNat = 127) then
    some ("parse \"" ++ url ++ "\": net/url: invalid control character in URL")
  else none

/-- The reference library. -/
def refLib : Lib Decimal where
  ParseFloat := refParseFloat
  toInt64 := refToInt64
  zero := ⟨0, 0⟩
  fmtFloat := refFmtFloat
  jsonValue := refJsonValue
  urlError := refUrlError

/-- A time is the instant `d` milliseconds after the Unix epoch. -/
def Time.isMillisAfterEpoch (t : Time) (d : Decimal) : Prop :=
  t.nsec * 10 ^ d.scale = d.mant * 1000000

instance (t : Time) (d : Decimal) : Decidable (t.isMillisAfterEpoch d) := by
  unfold Time.isMillisAfterEpoch; infer_instance

/-- Whether a dynamic value is a `float64`. -/
def JSON.isNumber : JSON F → Bool
  | .number _ => true
  | _ => false

/-- Whether a dynamic value is a `string`. -/
def JSON.isString : JSON F → Bool
  | .string _ => true
  | _ => false

/-- Whether a JSON value is an array. -/
def JSON.isArray : JSON F → Bool
  | .array _ => true
  | _ => false

/-- Whether a JSON value is `null`. -/
def JSON.isNull : JSON F → Bool
  | .null => true
  | _ => false

/-- A client whose HTTP client answers every request with the given status
code and body; reading and closing the body succeed. -/
def serverReplying (status : Int) (body : String) : FuturesClient Decimal :=
  NewFuturesClient "key" "secret" "https://fapi.binance.com"
    (fun _ => .ok ⟨status, (body, none), none⟩)

/-- A client whose HTTP client fails to send every request, with error `e`. -/
def serverUnreachable (e : GoError Decimal) : FuturesClient Decimal :=
  NewFuturesClient "key" "secret" "https://fapi.binance.com" (fun _ => .error e)

/-- A well-formed row as JSON text, with open time `t`. -/
def goodRowText (t : String) : String :=
  "[" ++ t ++ ", \"1.0\", \"2.0\", \"0.5\", \"1.5\", \"100.0\", 1600000059999]"

/-- A row as JSON text whose open time is the JSON string `x`. -/
def badTimeRowText : String :=
  "[\"x\", \"1.0\", \"2.0\", \"0.5\", \"1.5\", \"100.0\", 1600000059999]"

/-- The candle the row `goodRowText t` decodes to, `ms` being the value of `t`. -/
def goodCandle (ms : Int) : Candle Decimal :=
  { Symbol := "BTCUSDT"
    OpenTime := Time.UnixMilli ms
    CloseTime := Time.UnixMilli 1600000059999
    OpenPrice := ⟨1, 0⟩
    ClosePrice := ⟨15, 1⟩
    HighPrice := ⟨2, 0⟩
    LowPrice := ⟨5, 1⟩
    Volume := ⟨100, 0⟩ }

/-- The row `goodRowText t` decoded, `ms` being the value of `t`. -/
def goodRow (ms : Int) : List (JSON Decimal) :=
  [.number ⟨ms, 0⟩, .string "1.0", .string "2.0", .string "0.5", .string "1.5",
    .string "100.0", .number ⟨1600000059999, 0⟩]

/-- The row `badTimeRowText` decoded. -/
def badTimeRow : List (JSON Decimal) :=
  [.string "x", .string "1.0", .string "2.0", .string "0.5", .string "1.5",
    .string "100.0", .number ⟨1600000059999, 0⟩]

/-- A payload of three well-formed rows with open times 1, 2 and 3. -/
def threeRowsText : String :=
  "[" ++ goodRowText "1" ++ "," ++ goodRowText "2" ++ "," ++ goodRowText "3" ++ "]"

/-- A payload of five rows, of which row 3 (counting from 0) has a
non-numeric open time. -/
def fiveRowsText : String :=
  "[" ++ goodRowText "1" ++ "," ++ goodRowText "2" ++ "," ++ goodRowText "3" ++ "," ++
    badTimeRowText ++ "," ++ goodRowText "5" ++ "]"

/-- A client whose HTTP client answers with status 200 and the given body, and
whose response body fails to close with error `e`. -/
def serverFailingClose (body : String) (e : GoError Decimal) : FuturesClient Decimal :=
  NewFuturesClient "key" "secret" "https://fapi.binance.com"
    (fun _ => .ok ⟨200, (body, none), some e⟩)

/-- A client whose HTTP client answers with the given status code and a body
whose reading fails with error `e`; closing the body would succeed. -/
def serverFailingRead (status : Int) (e : GoError Decimal) : FuturesClient Decimal :=
  NewFuturesClient "key" "secret" "https://fapi.binance.com"
    (fun _ => .ok ⟨status, ("", some e), none⟩)

/-- The Go method `Header.Get`: the value stored under the canonical form of
`key`, or the empty string. -/
def Header.Get (h : List (String × String)) (key : String) : String :=
  match h.find? (fun kv => kv.1 == CanonicalMIMEHeaderKey key) with
  | some kv => kv.2
  | none => ""

/-- The text one entry of the parameter map contributes to the query string. -/
def querySegment (kv : String × String) : String :=
  "&" ++ kv.1 ++ "=" ++ kv.2

/-- A decimal is strictly positive. -/
def Decimal.isPositive (d : Decimal) : Prop := 0 < d.mant

instance (d : Decimal) : Decidable d.isPositive := by
  unfold Decimal.isPositive; infer_instance

/-- A decimal is not negative. -/
def Decimal.isNonneg (d : Decimal) : Prop := 0 ≤ d.mant

instance (d : Decimal) : Decidable d.isNonneg := by
  unfold Decimal.isNonneg; infer_instance

/-- The positions of a row in the order in which `NewCandle` checks them. -/
def checkOrder : List Nat := [0, 6, 1, 4, 2, 3, 5]

/-- The error, if any, that `NewCandle` gets for value `v` in position `k`:
positions 0 and 6 go through `parseTimeFn`, the others through `parseFloatFn`. -/
def fieldCheck (lib : Lib F) (now : Time) (k : Nat) (v : JSON F) : Option (GoError F) :=
  if k = 0 ∨ k = 6 then (parseTimeFn lib now v).2 else (parseFloatFn lib v).2

/-- The request `get` builds for a path: lines 126 to 136. -/
def requestOf (fc : FuturesClient F) (path : String) : Request :=
  ⟨"GET", fc.BaseURL ++ path,
    Header.Set (Header.Set [] "User-Agent"
      ("followmelistenme/binance-futures-client" ++ "/" ++ "0.0.1")) "X-MBX-APIKEY" fc.APIKey,
    ""⟩

/-- The concatenation of a list of texts, in order. -/
def joinSegments : List String → String
  | [] => ""
  | seg :: rest => seg ++ joinSegments rest

/-- A row with open price `"-1.0"`, low price `"0"` and volume `"-100.0"`. -/
def negativeRow : List (JSON Decimal) :=
  [.number ⟨1, 0⟩, .string "-1.0", .string "2.0", .string "0", .string "1.5",
    .string "-100.0", .number ⟨2, 0⟩]

/-- The candle with the values of `negativeRow`. -/
def negativeCandle : Candle Decimal :=
  { Symbol := "BTCUSDT"
    OpenTime := Time.UnixMilli 1
    CloseTime := Time.UnixMilli 2
    OpenPrice := ⟨-1, 0⟩
    ClosePrice := ⟨15, 1⟩
    HighPrice := ⟨2, 0⟩
    LowPrice := ⟨0, 0⟩
    Volume := ⟨-100, 0⟩ }

/-- The error body Binance sends for an unknown symbol, a JSON object. -/
def invalidSymbolBody : String :=
  "\x7b\"code\":-1121,\"msg\":\"Invalid symbol.\"\x7d"

/-- A row with two invalid fields: the number 5 as open price (position 1) and
the string `x` as close time (position 6). -/
def twoInvalidRow : List (JSON Decimal) :=
  [.number ⟨1, 0⟩, .number ⟨5, 0⟩, .string "2.0", .string "0.5", .string "1.5",
    .string "100.0", .string "x"]

/-- A payload of two rows: the row `[1]`, too short to be indexed at
position 6, followed by a row whose open time is the JSON string `x`. -/
def shortThenBadText : String :=
  "[[1]," ++ badTimeRowText ++ "]"

/-! ## Properties of `NewCandle` -/

theorem parseTimeFn_number (lib : Lib F) (now : Time) (t : F) :
    parseTimeFn lib now (.number t) = (Time.UnixMilli (lib.toInt64 t), none) := rfl

theorem parseTimeFn_not_number (lib : Lib F) (now : Time) (val : JSON F)
    (h : val.isNumber = false) : parseTimeFn lib now val = (now, some (.parseTime val)) := by
  cases val <;> simp_all [parseTimeFn, JSON.isNumber]

theorem parseFloatFn_ok (lib : Lib F) (s : String) (p : F) (h : lib.ParseFloat s = .ok p) :
    parseFloatFn lib (.string s) = (p, none) := by
  simp [parseFloatFn, h]

theorem parseFloatFn_not_string (lib : Lib F) (val : JSON F) (h : val.isString = false) :
    parseFloatFn lib val = (lib.zero, some (.parseFloatType val)) := by
  cases val <;> simp_all [parseFloatFn, JSON.isString]

theorem parseFloatFn_bad_string (lib : Lib F) (s e : String)
    (h : lib.ParseFloat s = .error e) :
    parseFloatFn lib (.string s) = (lib.zero, some (.parseFloatSyntax (.string s) e)) := by
  simp [parseFloatFn, h]

/-- On a row of at least seven elements no index expression panics: the result
is decided by the seven closures, tried in the order 0, 6, 1, 4, 2, 3, 5. -/
theorem NewCandle_seven (lib : Lib F) (now : Time) (symbol : String)
    (a0 a1 a2 a3 a4 a5 a6 : JSON F) (rest : List (JSON F)) :
    NewCandle lib now symbol (a0 :: a1 :: a2 :: a3 :: a4 :: a5 :: a6 :: rest) =
      match parseTimeFn lib now a0 with
      | (_, some err) => .ret (none, some err)
      | (openTime, none) =>
      match parseTimeFn lib now a6 with
      | (_, some err) => .ret (none, some err)
      | (closeTime, none) =>
      match parseFloatFn lib a1 with
      | (_, some err) => .ret (none, some err)
      | (openPrice, none) =>
      match parseFloatFn lib a4 with
      | (_, some err) => .ret (none, some err)
      | (closePrice, none) =>
      match parseFloatFn lib a2 with
      | (_, some err) => .ret (none, some err)
      | (highPrice, none) =>
      match parseFloatFn lib a3 with
      | (_, some err) => .ret (none, some err)
      | (lowPrice, none) =>
      match parseFloatFn lib a5 with
      | (_, some err) => .ret (none, some err)
      | (volume, none) =>
      .ret (some ⟨symbol, openTime, closeTime, openPrice, closePrice, highPrice, lowPrice,
        volume⟩, none) := by
  rfl

/-- A list of length at least seven is seven elements followed by a rest. -/
theorem exists_seven (item : List (JSON F)) (h : 7 ≤ item.length) :
    ∃ a0 a1 a2 a3 a4 a5 a6 rest, item = a0 :: a1 :: a2 :: a3 :: a4 :: a5 :: a6 :: rest := by
  match item, h with
  | a0 :: a1 :: a2 :: a3 :: a4 :: a5 :: a6 :: rest, _ => exact ⟨a0, a1, a2, a3, a4, a5, a6, rest, rfl⟩

/-- On a row of at least seven elements `NewCandle` returns: either an error and
no candle, or a candle and no error. -/
theorem NewCandle_seven_returns (lib : Lib F) (now : Time) (symbol : String)
    (item : List (JSON F)) (h : 7 ≤ item.length) :
    (∃ err, NewCandle lib now symbol item = .ret (none, some err)) ∨
    (∃ c, NewCandle lib now symbol item = .ret (some c, none)) := by
  obtain ⟨a0, a1, a2, a3, a4, a5, a6, rest, rfl⟩ := exists_seven item h
  rw [NewCandle_seven]
  repeat' split
  all_goals first | exact Or.inl ⟨_, rfl⟩ | exact Or.inr ⟨_, rfl⟩

/-- If one of the seven closures reports an error on its field, `NewCandle`
returns an error and no candle. -/
theorem NewCandle_seven_error (lib : Lib F) (now : Time) (symbol : String)
    (a0 a1 a2 a3 a4 a5 a6 : JSON F) (rest : List (JSON F))
    (h : (parseTimeFn lib now a0).2 ≠ none ∨ (parseTimeFn lib now a6).2 ≠ none ∨
      (parseFloatFn lib a1).2 ≠ none ∨ (parseFloatFn lib a2).2 ≠ none ∨
      (parseFloatFn lib a3).2 ≠ none ∨ (parseFloatFn lib a4).2 ≠ none ∨
      (parseFloatFn lib a5).2 ≠ none) :
    ∃ err, NewCandle lib now symbol (a0 :: a1 :: a2 :: a3 :: a4 :: a5 :: a6 :: rest) =
      .ret (none, some err) := by
  rw [NewCandle_seven]
  repeat' split
  all_goals first | exact ⟨_, rfl⟩ | (exfalso; simp_all)

/-- C1 (amended): on a row whose positions 0 and 6 are numbers and whose
positions 1 to 5 are strings that `ParseFloat` accepts, `NewCandle` returns a
candle and no error; the candle carries the symbol, the five parsed values in
the fields open (1), high (2), low (3), close (4), volume (5), and as open and
close time the instants `int64(row[0])` and `int64(row[6])` milliseconds
after the Unix epoch. -/
theorem NewCandle_valid_row (lib : Lib F) (now : Time) (symbol : String)
    (t0 t6 : F) (s1 s2 s3 s4 s5 : String) (p1 p2 p3 p4 p5 : F) (rest : List (JSON F))
    (h1 : lib.ParseFloat s1 = .ok p1) (h2 : lib.ParseFloat s2 = .ok p2)
    (h3 : lib.ParseFloat s3 = .ok p3) (h4 : lib.ParseFloat s4 = .ok p4)
    (h5 : lib.ParseFloat s5 = .ok p5) :
    NewCandle lib now symbol
      (.number t0 :: .string s1 :: .string s2 :: .string s3 :: .string s4 :: .string s5 ::
        .number t6 :: rest) =
    .ret (some
      { Symbol := symbol
        OpenTime := Time.UnixMilli (lib.toInt64 t0)
        CloseTime := Time.UnixMilli (lib.toInt64 t6)
        OpenPrice := p1
        ClosePrice := p4
        HighPrice := p2
        LowPrice := p3
        Volume := p5 }, none) := by
  rw [NewCandle_seven]
  simp [parseTimeFn, parseFloatFn, h1, h2, h3, h4, h5]

/-- The row of the specification, with 1 600 000 000 000 and 1 600 000 059 999
as times and five ignored trailing positions, decodes to open 1, high 2,
low 0.5, close 1.5 and volume 100. -/
theorem NewCandle_valid_row_witness :
    NewCandle refLib ⟨0⟩ "BTCUSDT"
      [.number ⟨1600000000000, 0⟩, .string "1.0", .string "2.0", .string "0.5", .string "1.5",
        .string "100.0", .number ⟨1600000059999, 0⟩, .string "0", .number ⟨3, 0⟩,
        .string "0", .string "0", .string "0"] =
    .ret (some
      { Symbol := "BTCUSDT"
        OpenTime := Time.UnixMilli 1600000000000
        CloseTime := Time.UnixMilli 1600000059999
        OpenPrice := ⟨1, 0⟩
        ClosePrice := ⟨15, 1⟩
        HighPrice := ⟨2, 0⟩
        LowPrice := ⟨5, 1⟩
        Volume := ⟨100, 0⟩ }, none) :=
  NewCandle_valid_row refLib ⟨0⟩ "BTCUSDT" ⟨1600000000000, 0⟩ ⟨1600000059999, 0⟩
    "1.0" "2.0" "0.5" "1.5" "100.0" ⟨1, 0⟩ ⟨2, 0⟩ ⟨5, 1⟩ ⟨15, 1⟩ ⟨100, 0⟩ _ rfl rfl rfl rfl rfl

/-- C1 (counterexample): the JSON number 1.5 in position 0 is a valid time
field, yet the candle's open time is the instant 1 millisecond after the
epoch (1 000 000 ns), not the instant 1.5 milliseconds after it. -/
theorem NewCandle_fractional_time :
    NewCandle refLib ⟨0⟩ "BTCUSDT"
      [.number ⟨15, 1⟩, .string "1.0", .string "2.0", .string "0.5", .string "1.5",
        .string "100.0", .number ⟨2, 0⟩] =
    .ret (some
      { Symbol := "BTCUSDT"
        OpenTime := ⟨1000000⟩
        CloseTime := ⟨2000000⟩
        OpenPrice := ⟨1, 0⟩
        ClosePrice := ⟨15, 1⟩
        HighPrice := ⟨2, 0⟩
        LowPrice := ⟨5, 1⟩
        Volume := ⟨100, 0⟩ }, none) ∧
    ¬ Time.isMillisAfterEpoch ⟨1000000⟩ ⟨15, 1⟩ :=
  ⟨rfl, by decide⟩

/-- C4: on a row of at least seven elements in which one of the positions 1 to
5 holds a value that is not a string (a number included), or a string that
`ParseFloat` rejects, `NewCandle` returns an error and no candle. -/
theorem NewCandle_rejects_bad_price (lib : Lib F) (now : Time) (symbol : String)
    (item : List (JSON F)) (k : Nat) (val : JSON F)
    (hlen : 7 ≤ item.length) (hk : 1 ≤ k ∧ k ≤ 5) (hval : item.get? k = some val)
    (hbad : val.isString = false ∨ ∃ s e, val = .string s ∧ lib.ParseFloat s = .error e) :
    ∃ err, NewCandle lib now symbol item = .ret (none, some err) := by
  obtain ⟨a0, a1, a2, a3, a4, a5, a6, rest, rfl⟩ := exists_seven item hlen
  have hv : (parseFloatFn lib val).2 ≠ none := by
    rcases hbad with h | ⟨s, e, rfl, h⟩
    · rw [parseFloatFn_not_string lib val h]; simp
    · rw [parseFloatFn_bad_string lib s e h]; simp
  apply NewCandle_seven_error
  obtain ⟨hk1, hk5⟩ := hk
  interval_cases k <;> simp at hval <;> subst hval <;> simp [hv]

/-- A number in a price position of an otherwise valid row is rejected. -/
theorem NewCandle_rejects_bad_price_witness :
    ∃ err, NewCandle refLib ⟨0⟩ "BTCUSDT"
      [.number ⟨1600000000000, 0⟩, .string "1.0", .number ⟨2, 0⟩, .string "0.5", .string "1.5",
        .string "100.0", .number ⟨1600000059999, 0⟩] = .ret (none, some err) :=
  NewCandle_rejects_bad_price refLib ⟨0⟩ "BTCUSDT" _ 2 (.number ⟨2, 0⟩) (by decide)
    (by decide) rfl (Or.inl rfl)

/-- C5: on a row of at least seven elements in which position 0 or position 6
holds a value that is not a number (a string of digits, a boolean, null, an
array or an object), `NewCandle` returns an error and no candle. -/
theorem NewCandle_rejects_bad_time (lib : Lib F) (now : Time) (symbol : String)
    (item : List (JSON F)) (k : Nat) (val : JSON F)
    (hlen : 7 ≤ item.length) (hk : k = 0 ∨ k = 6) (hval : item.get? k = some val)
    (hbad : val.isNumber = false) :
    ∃ err, NewCandle lib now symbol item = .ret (none, some err) := by
  obtain ⟨a0, a1, a2, a3, a4, a5, a6, rest, rfl⟩ := exists_seven item hlen
  have hv : (parseTimeFn lib now val).2 ≠ none := by
    rw [parseTimeFn_not_number lib now val hbad]; simp
  apply NewCandle_seven_error
  rcases hk with rfl | rfl <;> simp at hval <;> subst hval <;> simp [hv]

/-- A string of digits in position 6 of an otherwise valid row is rejected. -/
theorem NewCandle_rejects_bad_time_witness :
    ∃ err, NewCandle refLib ⟨0⟩ "BTCUSDT"
      [.number ⟨1600000000000, 0⟩, .string "1.0", .string "2.0", .string "0.5", .string "1.5",
        .string "100.0", .string "1600000000000"] = .ret (none, some err) :=
  NewCandle_rejects_bad_time refLib ⟨0⟩ "BTCUSDT" _ 6 (.string "1600000000000") (by decide)
    (Or.inr rfl) rfl rfl

/-- C6 (failing input): on the empty row the first index expression `item[0]`
is out of range and `NewCandle` panics; it returns neither a candle nor an
error. -/
theorem NewCandle_empty_row_panics (lib : Lib F) (now : Time) (symbol : String) :
    NewCandle lib now symbol [] = .panic (.indexOutOfRange 0 0) := rfl

/-- A non-empty row of fewer than seven elements that starts with a number
panics at the second index expression, `item[6]`. -/
theorem NewCandle_short_row_panics (lib : Lib F) (now : Time) (symbol : String)
    (t : F) (rest : List (JSON F)) (h : rest.length < 6) :
    NewCandle lib now symbol (.number t :: rest) =
      .panic (.indexOutOfRange 6 (rest.length + 1)) := by
  have h6 : rest[5]? = none := by
    rw [List.getElem?_eq_none_iff]; omega
  simp [NewCandle, index, Go.bind, parseTimeFn_number, h6]

/-- A non-empty row of fewer than seven elements that does not start with a
number yields the time error of its first element, not a panic. -/
theorem NewCandle_short_row_time_error (lib : Lib F) (now : Time) (symbol : String)
    (val : JSON F) (rest : List (JSON F)) (h : val.isNumber = false) :
    NewCandle lib now symbol (val :: rest) = .ret (none, some (.parseTime val)) := by
  simp only [NewCandle, index, Go.bind, List.get?, parseTimeFn_not_number lib now val h]

/-! ## Properties of `LoadCandles` -/

/-- A candle that `NewCandle` returns carries the symbol argument. -/
theorem NewCandle_symbol (lib : Lib F) (now : Time) (symbol : String) (item : List (JSON F))
    (c : Candle F) (e : Option (GoError F))
    (h : NewCandle lib now symbol item = .ret (some c, e)) : c.Symbol = symbol := by
  simp only [NewCandle, Go.bind] at h
  repeat' split at h
  all_goals first | (cases h; rfl) | cases h

/-- When every row decodes, the loop appends the candles in the order of the rows. -/
theorem candlesLoop_all_ok (lib : Lib F) (now : Time) (symbol : String)
    (rows : List (List (JSON F))) (cs acc : List (Option (Candle F)))
    (h : List.Forall₂ (fun item c => NewCandle lib now symbol item = .ret (c, none)) rows cs) :
    candlesLoop lib now symbol rows acc = .ret (some (acc ++ cs), none) := by
  induction h generalizing acc with
  | nil => simp [candlesLoop]
  | cons hx _ ih => simp [candlesLoop, hx, Go.bind, ih]

/-- When the rows before `item` decode and `item` yields an error, the loop
returns that error and a nil slice. -/
theorem candlesLoop_first_error (lib : Lib F) (now : Time) (symbol : String)
    (pre : List (List (JSON F))) (item : List (JSON F)) (post : List (List (JSON F)))
    (x : Option (Candle F)) (e : GoError F) (acc : List (Option (Candle F)))
    (hpre : ∀ row ∈ pre, ∃ c, NewCandle lib now symbol row = .ret (some c, none))
    (hitem : NewCandle lib now symbol item = .ret (x, some e)) :
    candlesLoop lib now symbol (pre ++ item :: post) acc = .ret (none, some e) := by
  induction pre generalizing acc with
  | nil => simp [candlesLoop, hitem, Go.bind]
  | cons row pre ih =>
    obtain ⟨c, hc⟩ := hpre row (List.mem_cons_self _ _)
    simp only [List.cons_append, candlesLoop, hc, Go.bind]
    exact ih _ (fun r hr => hpre r (List.mem_cons_of_mem _ hr))

/-- Rows that all decode have a list of candles related to them position by position. -/
theorem exists_candles (lib : Lib F) (now : Time) (symbol : String)
    (rows : List (List (JSON F)))
    (h : ∀ row ∈ rows, ∃ c, NewCandle lib now symbol row = .ret (some c, none)) :
    ∃ cs : List (Candle F), List.Forall₂
      (fun item c => NewCandle lib now symbol item = .ret (some c, none)) rows cs := by
  induction rows with
  | nil => exact ⟨[], List.Forall₂.nil⟩
  | cons row rows ih =>
    obtain ⟨c, hc⟩ := h row (List.mem_cons_self _ _)
    obtain ⟨cs, hcs⟩ := ih (fun r hr => h r (List.mem_cons_of_mem _ hr))
    exact ⟨c :: cs, List.Forall₂.cons hc hcs⟩

/-- C2: when the payload decodes into rows that all decode, `LoadCandles`
returns as many candles as there are rows and no error; the candle at each
position is the one `NewCandle` returns for the row at that position, and it
carries the symbol argument. -/
theorem LoadCandles_preserves_order (lib : Lib F) (now : Time) (fc : FuturesClient F)
    (symbol : String) (params : List (String × String)) (rows : List (List (JSON F)))
    (hrows : UnmarshalRows lib (get lib fc (klinesPath symbol params)).data = (rows, none))
    (hdec : ∀ row ∈ rows, ∃ c, NewCandle lib now symbol row = .ret (some c, none)) :
    ∃ candles : List (Candle F),
      LoadCandles lib now fc symbol params = .ret (some (candles.map some), none) ∧
      candles.length = rows.length ∧
      ∀ (i : Nat) (hr : i < rows.length) (hc : i < candles.length),
        NewCandle lib now symbol (rows.get ⟨i, hr⟩) = .ret (some (candles.get ⟨i, hc⟩), none) ∧
        (candles.get ⟨i, hc⟩).Symbol = symbol := by
  obtain ⟨cs, hcs⟩ := exists_candles lib now symbol rows hdec
  refine ⟨cs, ?_, hcs.length_eq.symm, ?_⟩
  · have h2 : List.Forall₂ (fun item c => NewCandle lib now symbol item = .ret (c, none))
        rows (cs.map some) := by
      rw [List.forall₂_map_right_iff]; exact hcs
    have := candlesLoop_all_ok lib now symbol rows (cs.map some) [] h2
    simpa [LoadCandles, decodeCandles, hrows] using this
  · intro i hr hc
    have h := List.Forall₂.get hcs hr hc
    exact ⟨h, NewCandle_symbol lib now symbol _ _ _ h⟩

/-- When the payload decodes into rows such that the rows before `item` decode
and `NewCandle` returns error `e` for `item`, `LoadCandles` returns the nil
slice and exactly the error `e`, whatever follows that row. A row before
`item` on which `NewCandle` panics is outside this statement. -/
theorem LoadCandles_first_error (lib : Lib F) (now : Time) (fc : FuturesClient F)
    (symbol : String) (params : List (String × String))
    (pre : List (List (JSON F))) (item : List (JSON F)) (post : List (List (JSON F)))
    (x : Option (Candle F)) (e : GoError F)
    (hrows : UnmarshalRows lib (get lib fc (klinesPath symbol params)).data =
      (pre ++ item :: post, none))
    (hpre : ∀ row ∈ pre, ∃ c, NewCandle lib now symbol row = .ret (some c, none))
    (hitem : NewCandle lib now symbol item = .ret (x, some e)) :
    LoadCandles lib now fc symbol params = .ret (none, some e) := by
  have := candlesLoop_first_error lib now symbol pre item post x e [] hpre hitem
  simpa [LoadCandles, decodeCandles, hrows] using this

/-- The payload `threeRowsText` decodes into the three rows its text shows. -/
theorem UnmarshalRows_threeRows :
    UnmarshalRows refLib
      (get refLib (serverReplying 200 threeRowsText)
        (klinesPath "BTCUSDT" [("interval", "1m")])).data =
    ([goodRow 1, goodRow 2, goodRow 3], none) := rfl

/-- Three rows with open times 1, 2, 3 decode to three candles in that order. -/
theorem LoadCandles_preserves_order_witness :
    ∃ candles : List (Candle Decimal),
      LoadCandles refLib ⟨0⟩ (serverReplying 200 threeRowsText) "BTCUSDT"
        [("interval", "1m")] = .ret (some (candles.map some), none) ∧
      candles.length = 3 ∧
      ∀ (i : Nat) (hr : i < 3) (hc : i < candles.length),
        NewCandle refLib ⟨0⟩ "BTCUSDT" ([goodRow 1, goodRow 2, goodRow 3].get ⟨i, hr⟩) =
          .ret (some (candles.get ⟨i, hc⟩), none) ∧
        (candles.get ⟨i, hc⟩).Symbol = "BTCUSDT" :=
  LoadCandles_preserves_order refLib ⟨0⟩ (serverReplying 200 threeRowsText) "BTCUSDT"
    [("interval", "1m")] [goodRow 1, goodRow 2, goodRow 3] UnmarshalRows_threeRows
    (by
      intro row hrow
      simp only [List.mem_cons, List.mem_singleton, List.not_mem_nil, or_false] at hrow
      rcases hrow with rfl | rfl | rfl
      · exact ⟨goodCandle 1, rfl⟩
      · exact ⟨goodCandle 2, rfl⟩
      · exact ⟨goodCandle 3, rfl⟩)

/-- The payload `fiveRowsText` decodes into five rows, the fourth being `badTimeRow`. -/
theorem UnmarshalRows_fiveRows :
    UnmarshalRows refLib
      (get refLib (serverReplying 200 fiveRowsText) (klinesPath "BTCUSDT" [])).data =
    ([goodRow 1, goodRow 2, goodRow 3] ++ badTimeRow :: [goodRow 5], none) := rfl

/-- The rows `goodRow 1`, `goodRow 2` and `goodRow 3` decode. -/
theorem goodRows_decode (row : List (JSON Decimal))
    (hrow : row ∈ [goodRow 1, goodRow 2, goodRow 3]) :
    ∃ c, NewCandle refLib ⟨0⟩ "BTCUSDT" row = .ret (some c, none) := by
  simp only [List.mem_cons, List.mem_singleton, List.not_mem_nil, or_false] at hrow
  rcases hrow with rfl | rfl | rfl
  · exact ⟨goodCandle 1, rfl⟩
  · exact ⟨goodCandle 2, rfl⟩
  · exact ⟨goodCandle 3, rfl⟩

/-- Of five rows the fourth fails: the error is the one of that row and the
three candles decoded before it are not returned. -/
theorem LoadCandles_first_error_witness :
    LoadCandles refLib ⟨0⟩ (serverReplying 200 fiveRowsText) "BTCUSDT" [] =
      .ret (none, some (.parseTime (.string "x"))) :=
  LoadCandles_first_error refLib ⟨0⟩ (serverReplying 200 fiveRowsText) "BTCUSDT" []
    [goodRow 1, goodRow 2, goodRow 3] badTimeRow [goodRow 5] none (.parseTime (.string "x"))
    UnmarshalRows_fiveRows goodRows_decode rfl

/-- An element that is neither an array nor `null` makes `json.Unmarshal` report an error. -/
theorem firstError_of_bad_element (xs : List (JSON F)) (x : JSON F) (hx : x ∈ xs)
    (hbad : x.isArray = false ∧ x.isNull = false) :
    ∃ err, firstError ((xs.map unmarshalRow).map Prod.snd) = some err := by
  induction xs with
  | nil => cases hx
  | cons y ys ih =>
    cases hy : (unmarshalRow y).2 with
    | some e => exact ⟨e, by simp only [List.map_cons, hy, firstError]⟩
    | none =>
      rcases List.mem_cons.mp hx with rfl | hmem
      · cases x <;> simp_all [unmarshalRow, JSON.isArray, JSON.isNull]
      · obtain ⟨err, herr⟩ := ih hmem
        exact ⟨err, by simp only [List.map_cons, hy, firstError, herr]⟩

/-- C7 (counterexample): the payload `null` is not an array, yet `LoadCandles`
returns an empty candle slice and no error. -/
theorem LoadCandles_null_payload :
    LoadCandles refLib ⟨0⟩ (serverReplying 200 "null") "BTCUSDT" [] = .ret (some [], none) :=
  rfl

/-- C7 (amended): when the top-level value of the payload is neither an array
nor `null`, or is an array with an element that is neither an array nor
`null`, `LoadCandles` returns an error and no candles. -/
theorem LoadCandles_rejects_shape (lib : Lib F) (now : Time) (fc : FuturesClient F)
    (symbol : String) (params : List (String × String)) (v : JSON F)
    (hv : lib.jsonValue (get lib fc (klinesPath symbol params)).data = .ok v)
    (hshape : (v.isArray = false ∧ v.isNull = false) ∨
      ∃ xs, v = .array xs ∧ ∃ x ∈ xs, x.isArray = false ∧ x.isNull = false) :
    ∃ err, LoadCandles lib now fc symbol params = .ret (none, some err) := by
  rcases hshape with ⟨ha, hn⟩ | ⟨xs, rfl, x, hx, hbad⟩
  · cases v <;> simp_all [LoadCandles, decodeCandles, UnmarshalRows, JSON.isArray, JSON.isNull]
  · obtain ⟨err, herr⟩ := firstError_of_bad_element xs x hx hbad
    exact ⟨err, by simp only [LoadCandles, decodeCandles, UnmarshalRows, hv, herr]⟩

/-- An array payload with a string element is rejected. -/
theorem LoadCandles_rejects_shape_witness :
    ∃ err, LoadCandles refLib ⟨0⟩ (serverReplying 200 "[[], \"a\"]") "BTCUSDT" [] =
      .ret (none, some err) :=
  LoadCandles_rejects_shape refLib ⟨0⟩ (serverReplying 200 "[[], \"a\"]") "BTCUSDT" []
    (.array [.array [], .string "a"]) rfl
    (Or.inr ⟨[.array [], .string "a"], rfl, .string "a", by simp, rfl, rfl⟩)

/-- A row whose first non-numeric time field is `val` yields the error
`parseTime val`. -/
theorem NewCandle_time_error (lib : Lib F) (now : Time) (symbol : String)
    (item : List (JSON F)) (val : JSON F)
    (htime : (item.get? 0 = some val ∧ val.isNumber = false) ∨
      (∃ t, item.get? 0 = some (.number t) ∧ item.get? 6 = some val ∧ val.isNumber = false)) :
    NewCandle lib now symbol item = .ret (none, some (.parseTime val)) := by
  rcases htime with ⟨h0, hn⟩ | ⟨t, h0, h6, hn⟩
  · simp only [NewCandle, index, h0, Go.bind, parseTimeFn_not_number lib now val hn]
  · simp only [NewCandle, index, h0, h6, Go.bind, parseTimeFn_number,
      parseTimeFn_not_number lib now val hn]

/-- C8 (counterexample): of five rows, row 3 has the non-numeric open time
`"x"`. The error returned reads `couldn't parse time, x`; the numeral 3 does
not occur in it, and the same error is returned when the offending row is
row 0 of a one-row payload. -/
theorem LoadCandles_error_has_no_row_index :
    LoadCandles refLib ⟨0⟩ (serverReplying 200 fiveRowsText) "BTCUSDT" [] =
      .ret (none, some (.parseTime (.string "x"))) ∧
    GoError.Error refLib (.parseTime (.string "x")) = "couldn't parse time, x" ∧
    referencesRow (GoError.Error refLib (.parseTime (.string "x"))) 3 = false ∧
    LoadCandles refLib ⟨0⟩ (serverReplying 200 ("[" ++ badTimeRowText ++ "]")) "BTCUSDT" [] =
      .ret (none, some (.parseTime (.string "x"))) := by
  refine ⟨?_, rfl, by decide, ?_⟩ <;> rfl

/-- C8 (amended): when the payload decodes into rows of which `item` is the
first that fails, and it fails on a non-numeric time field `val` (position 0,
or position 6 when position 0 is a number), `LoadCandles` returns no candles
and the error `couldn't parse time, <val>`, which is built from the offending
value alone and does not depend on the position of the row. -/
theorem LoadCandles_time_error (lib : Lib F) (now : Time) (fc : FuturesClient F)
    (symbol : String) (params : List (String × String))
    (pre : List (List (JSON F))) (item : List (JSON F)) (post : List (List (JSON F)))
    (val : JSON F)
    (hrows : UnmarshalRows lib (get lib fc (klinesPath symbol params)).data =
      (pre ++ item :: post, none))
    (hpre : ∀ row ∈ pre, ∃ c, NewCandle lib now symbol row = .ret (some c, none))
    (htime : (item.get? 0 = some val ∧ val.isNumber = false) ∨
      (∃ t, item.get? 0 = some (.number t) ∧ item.get? 6 = some val ∧ val.isNumber = false)) :
    LoadCandles lib now fc symbol params = .ret (none, some (.parseTime val)) ∧
    GoError.Error lib (.parseTime val) = "couldn't parse time, " ++ fmtV lib val := by
  refine ⟨?_, rfl⟩
  have hitem := NewCandle_time_error lib now symbol item val htime
  have := candlesLoop_first_error lib now symbol pre item post none _ [] hpre hitem
  simpa [LoadCandles, decodeCandles, hrows] using this

/-- Of five rows, row 3 has the string `"x"` as open time. -/
theorem LoadCandles_time_error_witness :
    LoadCandles refLib ⟨0⟩ (serverReplying 200 fiveRowsText) "BTCUSDT" [] =
      .ret (none, some (.parseTime (.string "x"))) ∧
    GoError.Error refLib (.parseTime (.string "x")) =
      "couldn't parse time, " ++ fmtV refLib (.string "x") :=
  LoadCandles_time_error refLib ⟨0⟩ (serverReplying 200 fiveRowsText) "BTCUSDT" []
    [goodRow 1, goodRow 2, goodRow 3] badTimeRow [goodRow 5] (.string "x")
    UnmarshalRows_fiveRows goodRows_decode (Or.inl ⟨rfl, rfl⟩)

/-- The payloads `[[]]` and `[null]` each decode into one empty row, on which
`NewCandle` and with it `LoadCandles` panics. -/
theorem LoadCandles_empty_row_panics :
    LoadCandles refLib ⟨0⟩ (serverReplying 200 "[[]]") "BTCUSDT" [] =
      .panic (.indexOutOfRange 0 0) ∧
    LoadCandles refLib ⟨0⟩ (serverReplying 200 "[null]") "BTCUSDT" [] =
      .panic (.indexOutOfRange 0 0) :=
  ⟨rfl, rfl⟩

/-! ## Properties of `get` -/

/-- C9 (failing input): the server answers with status 400 and the JSON
string `"-1121: Invalid symbol."`. The body parses as a JSON string, so no
error is built: `get` returns the body and a nil error. -/
theorem get_error_status_returns_body :
    (get refLib (serverReplying 400 "\"-1121: Invalid symbol.\"")
      "/fapi/v1/klines?symbol=XXX").data = "\"-1121: Invalid symbol.\"" ∧
    (get refLib (serverReplying 400 "\"-1121: Invalid symbol.\"")
      "/fapi/v1/klines?symbol=XXX").err = none :=
  ⟨rfl, rfl⟩

/-- C10 (failing input): the HTTP client fails to send the request with error
`e`. `get` returns `e`, but `LoadCandles` drops it, decodes the empty slice and
returns the JSON syntax error of the empty input in its place. -/
theorem LoadCandles_replaces_transport_error :
    (get refLib (serverUnreachable (.transport "dial tcp: connection refused"))
      (klinesPath "BTCUSDT" [])).err = some (.transport "dial tcp: connection refused") ∧
    LoadCandles refLib ⟨0⟩ (serverUnreachable (.transport "dial tcp: connection refused"))
      "BTCUSDT" [] = .ret (none, some (.jsonSyntax "unexpected end of JSON input")) :=
  ⟨rfl, rfl⟩

/-- When closing the response body fails with `e`, `get` returns the body
together with `e`; `LoadCandles` drops `e` and returns the candles with a nil
error. -/
theorem LoadCandles_drops_close_error :
    (get refLib (serverFailingClose ("[" ++ goodRowText "1" ++ "]") (.transport "close failed"))
      (klinesPath "BTCUSDT" [])).err = some (.transport "close failed") ∧
    LoadCandles refLib ⟨0⟩
      (serverFailingClose ("[" ++ goodRowText "1" ++ "]") (.transport "close failed"))
      "BTCUSDT" [] = .ret (some [some (goodCandle 1)], none) :=
  ⟨rfl, rfl⟩

/-- C11 (failing input): the HTTP client returns a response whose body fails
to be read. `get` returns the read error before the deferred `Close` is
registered: one body was received and none was closed. -/
theorem get_read_failure_leaves_body_open :
    (get refLib (serverFailingRead 200 (.transport "unexpected EOF"))
      "/fapi/v1/klines?symbol=BTCUSDT").err = some (.transport "unexpected EOF") ∧
    (get refLib (serverFailingRead 200 (.transport "unexpected EOF"))
      "/fapi/v1/klines?symbol=BTCUSDT").opened = 1 ∧
    (get refLib (serverFailingRead 200 (.transport "unexpected EOF"))
      "/fapi/v1/klines?symbol=BTCUSDT").closed = 0 :=
  ⟨rfl, rfl, rfl⟩

/-- The run of `get` when `http.NewRequest` rejects the URL. -/
theorem get_url_error (lib : Lib F) (fc : FuturesClient F) (path msg : String)
    (hu : lib.urlError (fc.BaseURL ++ path) = some msg) :
    get lib fc path = ⟨"", some (.transport msg), none, 0, 0⟩ := by
  simp only [get, hu]

/-- The run of `get` when the HTTP client returns an error. -/
theorem get_send_error (lib : Lib F) (fc : FuturesClient F) (path : String) (err : GoError F)
    (hu : lib.urlError (fc.BaseURL ++ path) = none)
    (hres : fc.HTTPClient (requestOf fc path) = .error err) :
    get lib fc path = ⟨"", some err, some (requestOf fc path), 0, 0⟩ := by
  unfold requestOf at hres
  simp only [get, hu, hres, requestOf]

/-- The run of `get` when reading the response body fails. -/
theorem get_read_error (lib : Lib F) (fc : FuturesClient F) (path : String) (res : Response F)
    (d : String) (err : GoError F)
    (hu : lib.urlError (fc.BaseURL ++ path) = none)
    (hres : fc.HTTPClient (requestOf fc path) = .ok res)
    (hread : res.readAll = (d, some err)) :
    get lib fc path = ⟨"", some err, some (requestOf fc path), 1, 0⟩ := by
  unfold requestOf at hres
  simp only [get, hu, hres, hread, requestOf]

/-- The run of `get` when the response body has been read. -/
theorem get_read_ok (lib : Lib F) (fc : FuturesClient F) (path : String) (res : Response F)
    (data : String)
    (hu : lib.urlError (fc.BaseURL ++ path) = none)
    (hres : fc.HTTPClient (requestOf fc path) = .ok res)
    (hread : res.readAll = (data, none)) :
    get lib fc path =
      if 400 ≤ res.StatusCode then
        match UnmarshalString lib data with
        | some err => ⟨"", some err, some (requestOf fc path), 1, 1⟩
        | none => ⟨data, res.closeErr, some (requestOf fc path), 1, 1⟩
      else ⟨data, res.closeErr, some (requestOf fc path), 1, 1⟩ := by
  unfold requestOf at hres
  simp only [get, hu, hres, hread, requestOf]

/-- On every run of `get` in which reading the body does not fail, as many
bodies are closed as were received. -/
theorem get_closes_body_after_read (lib : Lib F) (fc : FuturesClient F) (path : String)
    (h : ∀ res, fc.HTTPClient (requestOf fc path) = .ok res → res.readAll.2 = none) :
    (get lib fc path).closed = (get lib fc path).opened := by
  cases hu : lib.urlError (fc.BaseURL ++ path) with
  | some msg => rw [get_url_error lib fc path msg hu]
  | none =>
    cases hres : fc.HTTPClient (requestOf fc path) with
    | error err => rw [get_send_error lib fc path err hu hres]
    | ok res =>
      have hr := h res hres
      rcases hread : res.readAll with ⟨data, _ | e⟩
      · rw [get_read_ok lib fc path res data hu hres hread]
        split
        · split <;> rfl
        · rfl
      · rw [hread] at hr
        cases hr

/-- The two header keys in the canonical form `Header.Set` stores. -/
theorem canonical_header_keys :
    CanonicalMIMEHeaderKey "User-Agent" = "User-Agent" ∧
    CanonicalMIMEHeaderKey "X-MBX-APIKEY" = "X-Mbx-Apikey" := by
  constructor <;> decide

/-- The request `get` builds, with its header written out. -/
theorem requestOf_eq (fc : FuturesClient F) (path : String) :
    requestOf fc path =
      ⟨"GET", fc.BaseURL ++ path,
        [("User-Agent", "followmelistenme/binance-futures-client/0.0.1"),
          ("X-Mbx-Apikey", fc.APIKey)], ""⟩ := by
  have h1 := canonical_header_keys.1
  have h2 := canonical_header_keys.2
  have h3 : ("User-Agent" != "X-Mbx-Apikey") = true := by decide
  have h4 : "followmelistenme/binance-futures-client" ++ "/" ++ "0.0.1" =
      "followmelistenme/binance-futures-client/0.0.1" := by decide
  simp only [requestOf, Header.Set, h1, h2, h3, h4, List.filter, List.nil_append,
    List.cons_append]

/-- What `get` hands to the HTTP client: nothing when the URL is rejected,
the request `requestOf` otherwise. -/
theorem get_sent (lib : Lib F) (fc : FuturesClient F) (path : String) :
    (get lib fc path).sent =
      match lib.urlError (fc.BaseURL ++ path) with
      | some _ => none
      | none => some (requestOf fc path) := by
  cases hu : lib.urlError (fc.BaseURL ++ path) with
  | some msg => rw [get_url_error lib fc path msg hu]
  | none =>
    cases hres : fc.HTTPClient (requestOf fc path) with
    | error err => rw [get_send_error lib fc path err hu hres]
    | ok res =>
      rcases hread : res.readAll with ⟨data, _ | e⟩
      · rw [get_read_ok lib fc path res data hu hres hread]
        split
        · split <;> rfl
        · rfl
      · rw [get_read_error lib fc path res data e hu hres hread]

/-- C12: a request that `get` hands to the HTTP client has method GET, the URL
`BaseURL` followed by the path, an empty body and exactly two headers, the
user agent and the API key (stored by `Header.Set` under the canonical
spelling of `X-MBX-APIKEY`, which `Header.Get` finds again). The request is
the same whatever the secret key of the client. -/
theorem get_request_shape (lib : Lib F) (fc : FuturesClient F) (path : String) (req : Request)
    (h : (get lib fc path).sent = some req) :
    req.Method = "GET" ∧ req.URL = fc.BaseURL ++ path ∧ req.Body = "" ∧
    req.Header = [("User-Agent", "followmelistenme/binance-futures-client/0.0.1"),
      (CanonicalMIMEHeaderKey "X-MBX-APIKEY", fc.APIKey)] ∧
    req.Header.length = 2 ∧
    Header.Get req.Header "User-Agent" = "followmelistenme/binance-futures-client/0.0.1" ∧
    Header.Get req.Header "X-MBX-APIKEY" = fc.APIKey ∧
    ∀ secretKey : String,
      (get lib ⟨fc.APIKey, secretKey, fc.BaseURL, fc.HTTPClient⟩ path).sent = some req := by
  have hs := get_sent lib fc path
  rw [h] at hs
  cases hu : lib.urlError (fc.BaseURL ++ path) with
  | some msg => rw [hu] at hs; cases hs
  | none =>
    rw [hu] at hs
    have hreq : req = requestOf fc path := by simpa using hs
    have h1 := canonical_header_keys.1
    have h2 := canonical_header_keys.2
    have h3 : ("User-Agent" == "User-Agent") = true := by decide
    have h4 : ("User-Agent" == "X-Mbx-Apikey") = false := by decide
    have h5 : ("X-Mbx-Apikey" == "X-Mbx-Apikey") = true := by decide
    subst hreq
    rw [requestOf_eq]
    refine ⟨rfl, rfl, rfl, by rw [h2], rfl, ?_, ?_, ?_⟩
    · simp only [Header.Get, h1, List.find?, h3]
    · simp only [Header.Get, h2, List.find?, h4, h5]
    · intro secretKey
      have hs2 := get_sent lib ⟨fc.APIKey, secretKey, fc.BaseURL, fc.HTTPClient⟩ path
      rw [hs2]
      simp only [hu]
      rw [requestOf_eq]

/-- The request for the klines of BTCUSDT sent by a client with API key `key`. -/
theorem get_request_shape_witness :
    (⟨"GET", "https://fapi.binance.com/fapi/v1/klines?symbol=BTCUSDT",
      [("User-Agent", "followmelistenme/binance-futures-client/0.0.1"),
        ("X-Mbx-Apikey", "key")], ""⟩ : Request).Method = "GET" ∧
    (⟨"GET", "https://fapi.binance.com/fapi/v1/klines?symbol=BTCUSDT",
      [("User-Agent", "followmelistenme/binance-futures-client/0.0.1"),
        ("X-Mbx-Apikey", "key")], ""⟩ : Request).URL =
      (serverReplying 200 "[]").BaseURL ++ "/fapi/v1/klines?symbol=BTCUSDT" ∧
    (⟨"GET", "https://fapi.binance.com/fapi/v1/klines?symbol=BTCUSDT",
      [("User-Agent", "followmelistenme/binance-futures-client/0.0.1"),
        ("X-Mbx-Apikey", "key")], ""⟩ : Request).Body = "" ∧
    (⟨"GET", "https://fapi.binance.com/fapi/v1/klines?symbol=BTCUSDT",
      [("User-Agent", "followmelistenme/binance-futures-client/0.0.1"),
        ("X-Mbx-Apikey", "key")], ""⟩ : Request).Header =
      [("User-Agent", "followmelistenme/binance-futures-client/0.0.1"),
        (CanonicalMIMEHeaderKey "X-MBX-APIKEY", (serverReplying 200 "[]").APIKey)] ∧
    (⟨"GET", "https://fapi.binance.com/fapi/v1/klines?symbol=BTCUSDT",
      [("User-Agent", "followmelistenme/binance-futures-client/0.0.1"),
        ("X-Mbx-Apikey", "key")], ""⟩ : Request).Header.length = 2 ∧
    Header.Get (⟨"GET", "https://fapi.binance.com/fapi/v1/klines?symbol=BTCUSDT",
      [("User-Agent", "followmelistenme/binance-futures-client/0.0.1"),
        ("X-Mbx-Apikey", "key")], ""⟩ : Request).Header "User-Agent" =
      "followmelistenme/binance-futures-client/0.0.1" ∧
    Header.Get (⟨"GET", "https://fapi.binance.com/fapi/v1/klines?symbol=BTCUSDT",
      [("User-Agent", "followmelistenme/binance-futures-client/0.0.1"),
        ("X-Mbx-Apikey", "key")], ""⟩ : Request).Header "X-MBX-APIKEY" =
      (serverReplying 200 "[]").APIKey ∧
    ∀ secretKey : String,
      (get refLib ⟨(serverReplying 200 "[]").APIKey, secretKey,
        (serverReplying 200 "[]").BaseURL, (serverReplying 200 "[]").HTTPClient⟩
        "/fapi/v1/klines?symbol=BTCUSDT").sent =
      some ⟨"GET", "https://fapi.binance.com/fapi/v1/klines?symbol=BTCUSDT",
        [("User-Agent", "followmelistenme/binance-futures-client/0.0.1"),
          ("X-Mbx-Apikey", "key")], ""⟩ :=
  get_request_shape refLib (serverReplying 200 "[]") "/fapi/v1/klines?symbol=BTCUSDT"
    ⟨"GET", "https://fapi.binance.com/fapi/v1/klines?symbol=BTCUSDT",
      [("User-Agent", "followmelistenme/binance-futures-client/0.0.1"),
        ("X-Mbx-Apikey", "key")], ""⟩ rfl

/-! ## The path requested by `LoadCandles` -/

/-- The loop that builds the query string appends one segment per entry. -/
theorem queryString_foldl (params : List (String × String)) (init : String) :
    params.foldl (fun q kv => q ++ "&" ++ kv.1 ++ "=" ++ kv.2) init =
      init ++ joinSegments (params.map querySegment) := by
  induction params generalizing init with
  | nil => simp [joinSegments]
  | cons kv rest ih =>
    rw [List.foldl_cons, ih, List.map_cons]
    simp only [joinSegments, querySegment, String.append_assoc]

/-- C13: `LoadCandles` calls `get` with the path `/fapi/v1/klines?symbol=`
followed by the symbol and by one segment `&key=value` per entry of the
parameter map, in the order `params` in which the loop visits the entries;
that order being a permutation of the entries, every entry contributes
exactly one segment. With no entry the path ends with the symbol. -/
theorem klinesPath_segments (symbol : String) (entries params : List (String × String))
    (hperm : params.Perm entries) :
    klinesPath symbol params =
      "/fapi/v1/klines?symbol=" ++ symbol ++ joinSegments (params.map querySegment) ∧
    (params.map querySegment).Perm (entries.map querySegment) ∧
    (entries = [] → klinesPath symbol params = "/fapi/v1/klines?symbol=" ++ symbol) ∧
    ∀ (lib : Lib F) (now : Time) (fc : FuturesClient F),
      LoadCandles lib now fc symbol params =
        decodeCandles lib now symbol (get lib fc (klinesPath symbol params)).data := by
  have hpath : klinesPath symbol params =
      "/fapi/v1/klines?symbol=" ++ symbol ++ joinSegments (params.map querySegment) := by
    simp only [klinesPath, queryString, queryString_foldl, String.empty_append]
  refine ⟨hpath, hperm.map _, ?_, fun _ _ _ => rfl⟩
  intro hnil
  subst hnil
  have hp : params = [] := List.perm_nil.mp hperm
  subst hp
  simpa [joinSegments] using hpath

/-- A map with the entries `interval=1m` and `limit=5`, visited in the
opposite order. -/
theorem klinesPath_segments_witness :
    klinesPath "BTCUSDT" [("limit", "5"), ("interval", "1m")] =
      "/fapi/v1/klines?symbol=" ++ "BTCUSDT" ++
        joinSegments ([("limit", "5"), ("interval", "1m")].map querySegment) ∧
    ([("limit", "5"), ("interval", "1m")].map querySegment).Perm
      ([("interval", "1m"), ("limit", "5")].map querySegment) ∧
    ([("interval", "1m"), ("limit", "5")] = [] →
      klinesPath "BTCUSDT" [("limit", "5"), ("interval", "1m")] =
        "/fapi/v1/klines?symbol=" ++ "BTCUSDT") ∧
    ∀ (lib : Lib Decimal) (now : Time) (fc : FuturesClient Decimal),
      LoadCandles lib now fc "BTCUSDT" [("limit", "5"), ("interval", "1m")] =
        decodeCandles lib now "BTCUSDT"
          (get lib fc (klinesPath "BTCUSDT" [("limit", "5"), ("interval", "1m")])).data :=
  klinesPath_segments "BTCUSDT" [("interval", "1m"), ("limit", "5")]
    [("limit", "5"), ("interval", "1m")] (List.Perm.swap _ _ _)

/-- The path of the witness written out, and the path for an empty map. -/
theorem klinesPath_examples :
    klinesPath "BTCUSDT" [("limit", "5"), ("interval", "1m")] =
      "/fapi/v1/klines?symbol=BTCUSDT&limit=5&interval=1m" ∧
    klinesPath "BTCUSDT" [] = "/fapi/v1/klines?symbol=BTCUSDT" := by
  constructor <;> decide

/-! ## What a decoded candle holds -/

/-- A row for which `NewCandle` returns a candle has at least seven elements. -/
theorem NewCandle_ok_length (lib : Lib F) (now : Time) (symbol : String)
    (item : List (JSON F)) (c : Candle F) (e : Option (GoError F))
    (h : NewCandle lib now symbol item = .ret (some c, e)) : 7 ≤ item.length := by
  by_contra hlt
  have h6 : item[6]? = none := by
    rw [List.getElem?_eq_none_iff]; omega
  simp only [NewCandle, index, Go.bind, List.get?_eq_getElem?, h6] at h
  repeat' split at h
  all_goals cases h

/-- A value that `parseFloatFn` accepts is a string that `ParseFloat` accepts. -/
theorem parseFloatFn_eq_ok (lib : Lib F) (v : JSON F) (p : F)
    (h : parseFloatFn lib v = (p, none)) : ∃ s, v = .string s ∧ lib.ParseFloat s = .ok p := by
  cases v with
  | string s =>
    cases hp : lib.ParseFloat s with
    | ok f =>
      simp only [parseFloatFn, hp, Prod.mk.injEq, and_true] at h
      exact ⟨s, rfl, by rw [hp, h]⟩
    | error err => simp [parseFloatFn, hp] at h
  | _ => simp [parseFloatFn] at h

/-- C14 (counterexample): a row with open price `"-1.0"`, low price `"0"` and
volume `"-100.0"` decodes to a candle with these values: the open price is
negative, the low price is zero and the volume is negative. -/
theorem NewCandle_accepts_negative_values :
    NewCandle refLib ⟨0⟩ "BTCUSDT"
      [.number ⟨1, 0⟩, .string "-1.0", .string "2.0", .string "0", .string "1.5",
        .string "-100.0", .number ⟨2, 0⟩] = .ret (some negativeCandle, none) ∧
    negativeCandle.OpenPrice = ⟨-1, 0⟩ ∧ ¬ negativeCandle.OpenPrice.isPositive ∧
    negativeCandle.LowPrice = ⟨0, 0⟩ ∧ ¬ negativeCandle.LowPrice.isPositive ∧
    negativeCandle.Volume = ⟨-100, 0⟩ ∧ ¬ negativeCandle.Volume.isNonneg :=
  ⟨rfl, rfl, by decide, rfl, by decide, rfl, by decide⟩

/-- C14 (amended): a candle that `NewCandle` returns holds, as open, high, low
and close price and as volume, exactly the values `ParseFloat` returns for the
strings in positions 1, 2, 3, 4 and 5 of its row; no condition on their sign
is checked. -/
theorem NewCandle_fields_as_parsed (lib : Lib F) (now : Time) (symbol : String)
    (item : List (JSON F)) (c : Candle F)
    (h : NewCandle lib now symbol item = .ret (some c, none)) :
    ∃ s1 s2 s3 s4 s5 : String,
      item.get? 1 = some (.string s1) ∧ lib.ParseFloat s1 = .ok c.OpenPrice ∧
      item.get? 2 = some (.string s2) ∧ lib.ParseFloat s2 = .ok c.HighPrice ∧
      item.get? 3 = some (.string s3) ∧ lib.ParseFloat s3 = .ok c.LowPrice ∧
      item.get? 4 = some (.string s4) ∧ lib.ParseFloat s4 = .ok c.ClosePrice ∧
      item.get? 5 = some (.string s5) ∧ lib.ParseFloat s5 = .ok c.Volume := by
  obtain ⟨a0, a1, a2, a3, a4, a5, a6, rest, rfl⟩ :=
    exists_seven item (NewCandle_ok_length lib now symbol item c none h)
  rw [NewCandle_seven] at h
  rcases h0 : parseTimeFn lib now a0 with ⟨t0, _ | e0⟩ <;> simp only [h0] at h <;>
    try (cases h)
  rcases h6 : parseTimeFn lib now a6 with ⟨t6, _ | e6⟩ <;> simp only [h6] at h <;>
    try (cases h)
  rcases h1 : parseFloatFn lib a1 with ⟨p1, _ | e1⟩ <;> simp only [h1] at h <;>
    try (cases h)
  rcases h4 : parseFloatFn lib a4 with ⟨p4, _ | e4⟩ <;> simp only [h4] at h <;>
    try (cases h)
  rcases h2 : parseFloatFn lib a2 with ⟨p2, _ | e2⟩ <;> simp only [h2] at h <;>
    try (cases h)
  rcases h3 : parseFloatFn lib a3 with ⟨p3, _ | e3⟩ <;> simp only [h3] at h <;>
    try (cases h)
  rcases h5 : parseFloatFn lib a5 with ⟨p5, _ | e5⟩ <;> simp only [h5] at h <;>
    try (cases h)
  obtain ⟨s1, rfl, hs1⟩ := parseFloatFn_eq_ok lib a1 p1 h1
  obtain ⟨s2, rfl, hs2⟩ := parseFloatFn_eq_ok lib a2 p2 h2
  obtain ⟨s3, rfl, hs3⟩ := parseFloatFn_eq_ok lib a3 p3 h3
  obtain ⟨s4, rfl, hs4⟩ := parseFloatFn_eq_ok lib a4 p4 h4
  obtain ⟨s5, rfl, hs5⟩ := parseFloatFn_eq_ok lib a5 p5 h5
  exact ⟨s1, s2, s3, s4, s5, rfl, hs1, rfl, hs2, rfl, hs3, rfl, hs4, rfl, hs5⟩

/-- The candle of `negativeRow` holds the parsed values -1, 2, 0, 1.5 and -100. -/
theorem NewCandle_fields_as_parsed_witness :
    ∃ s1 s2 s3 s4 s5 : String,
      negativeRow.get? 1 = some (.string s1) ∧
      refLib.ParseFloat s1 = .ok negativeCandle.OpenPrice ∧
      negativeRow.get? 2 = some (.string s2) ∧
      refLib.ParseFloat s2 = .ok negativeCandle.HighPrice ∧
      negativeRow.get? 3 = some (.string s3) ∧
      refLib.ParseFloat s3 = .ok negativeCandle.LowPrice ∧
      negativeRow.get? 4 = some (.string s4) ∧
      refLib.ParseFloat s4 = .ok negativeCandle.ClosePrice ∧
      negativeRow.get? 5 = some (.string s5) ∧
      refLib.ParseFloat s5 = .ok negativeCandle.Volume :=
  NewCandle_fields_as_parsed refLib ⟨0⟩ "BTCUSDT" negativeRow negativeCandle rfl

/-! ## Error statuses and successful responses in `get` -/

/-- C15 (counterexample): the server answers with status 400 and the body
`null`, which is not a JSON string. `json.Unmarshal` into a string accepts
`null`, so `get` returns the body and a nil error. -/
theorem get_error_status_null_body :
    refLib.jsonValue "null" = .ok .null ∧
    (get refLib (serverReplying 400 "null") "/fapi/v1/klines?symbol=XXX").data = "null" ∧
    (get refLib (serverReplying 400 "null") "/fapi/v1/klines?symbol=XXX").err = none :=
  ⟨rfl, rfl, rfl⟩

/-- C15 (amended): when the HTTP client returns a response with status code
at least 400 whose body is read and is either not valid JSON or a JSON value
other than a string and `null`, `get` returns the error of `json.Unmarshal`
and no body data. -/
theorem get_error_status_parse_failure (lib : Lib F) (fc : FuturesClient F) (path : String)
    (res : Response F) (data : String)
    (hu : lib.urlError (fc.BaseURL ++ path) = none)
    (hres : fc.HTTPClient (requestOf fc path) = .ok res)
    (hread : res.readAll = (data, none))
    (hstatus : 400 ≤ res.StatusCode)
    (hbad : (∃ msg, lib.jsonValue data = .error msg) ∨
      ∃ v, lib.jsonValue data = .ok v ∧ v.isString = false ∧ v.isNull = false) :
    ∃ e, UnmarshalString lib data = some e ∧
      (get lib fc path).err = some e ∧ (get lib fc path).data = "" := by
  have hparse : ∃ e, UnmarshalString lib data = some e := by
    rcases hbad with ⟨msg, hmsg⟩ | ⟨v, hv, hs, hn⟩
    · exact ⟨.jsonSyntax msg, by simp only [UnmarshalString, hmsg]⟩
    · cases v <;> simp_all [UnmarshalString, JSON.isString, JSON.isNull]
  obtain ⟨e, he⟩ := hparse
  refine ⟨e, he, ?_, ?_⟩ <;>
    simp only [get_read_ok lib fc path res data hu hres hread, hstatus, if_true, he]

/-- Status 400 with the JSON object Binance sends for an unknown symbol. -/
theorem get_error_status_parse_failure_witness :
    ∃ e, UnmarshalString refLib invalidSymbolBody = some e ∧
      (get refLib (serverReplying 400 invalidSymbolBody)
        "/fapi/v1/klines?symbol=XXX").err = some e ∧
      (get refLib (serverReplying 400 invalidSymbolBody)
        "/fapi/v1/klines?symbol=XXX").data = "" :=
  get_error_status_parse_failure refLib (serverReplying 400 invalidSymbolBody)
    "/fapi/v1/klines?symbol=XXX" ⟨400, (invalidSymbolBody, none), none⟩ invalidSymbolBody
    rfl rfl rfl (by decide)
    (Or.inr ⟨.object [("code", .number ⟨-1121, 0⟩), ("msg", .string "Invalid symbol.")],
      rfl, rfl, rfl⟩)

/-- C18 (counterexample): the server answers with status 200 and the body
`[]`, which is read, but closing the body fails. `get` returns the body
together with the error of `Close`, not a nil error. -/
theorem get_success_with_close_error :
    (get refLib (serverFailingClose "[]" (.transport "close failed"))
      "/fapi/v1/klines?symbol=BTCUSDT").data = "[]" ∧
    (get refLib (serverFailingClose "[]" (.transport "close failed"))
      "/fapi/v1/klines?symbol=BTCUSDT").err = some (.transport "close failed") :=
  ⟨rfl, rfl⟩

/-- C18 (amended): when the HTTP client returns a response with status code
below 400 whose body is read, `get` returns the bytes of the body unchanged,
whatever they are; the error it returns is the result of closing the body,
nil when `Close` succeeds. -/
theorem get_success_returns_body (lib : Lib F) (fc : FuturesClient F) (path : String)
    (res : Response F) (data : String)
    (hu : lib.urlError (fc.BaseURL ++ path) = none)
    (hres : fc.HTTPClient (requestOf fc path) = .ok res)
    (hread : res.readAll = (data, none))
    (hstatus : res.StatusCode < 400) :
    (get lib fc path).data = data ∧ (get lib fc path).err = res.closeErr ∧
    (res.closeErr = none → (get lib fc path).err = none) := by
  have hnot : ¬ 400 ≤ res.StatusCode := by omega
  have hget := get_read_ok lib fc path res data hu hres hread
  rw [if_neg hnot] at hget
  rw [hget]
  exact ⟨rfl, rfl, fun h => h⟩

/-- Status 200 with a body that is not JSON at all: the body is returned as it is. -/
theorem get_success_returns_body_witness :
    (get refLib (serverReplying 200 "<html>") "/fapi/v1/klines?symbol=BTCUSDT").data =
      "<html>" ∧
    (get refLib (serverReplying 200 "<html>") "/fapi/v1/klines?symbol=BTCUSDT").err =
      (⟨200, ("<html>", none), none⟩ : Response Decimal).closeErr ∧
    ((⟨200, ("<html>", none), none⟩ : Response Decimal).closeErr = none →
      (get refLib (serverReplying 200 "<html>") "/fapi/v1/klines?symbol=BTCUSDT").err = none) :=
  get_success_returns_body refLib (serverReplying 200 "<html>")
    "/fapi/v1/klines?symbol=BTCUSDT" ⟨200, ("<html>", none), none⟩ "<html>"
    rfl rfl rfl (by decide)

/-! ## What the result of `NewCandle` depends on -/

/-- C16: two rows of at least seven elements that agree on positions 0 to 6
give the same result of `NewCandle`, whatever their lengths and later
positions. -/
theorem NewCandle_depends_on_first_seven (lib : Lib F) (now : Time) (symbol : String)
    (item item2 : List (JSON F)) (h1 : 7 ≤ item.length) (h2 : 7 ≤ item2.length)
    (heq : item.take 7 = item2.take 7) :
    NewCandle lib now symbol item = NewCandle lib now symbol item2 := by
  obtain ⟨a0, a1, a2, a3, a4, a5, a6, rest, rfl⟩ := exists_seven item h1
  obtain ⟨b0, b1, b2, b3, b4, b5, b6, rest2, rfl⟩ := exists_seven item2 h2
  simp only [List.take_succ_cons, List.take_zero, List.cons.injEq, and_true] at heq
  obtain ⟨rfl, rfl, rfl, rfl, rfl, rfl, rfl⟩ := heq
  rw [NewCandle_seven, NewCandle_seven]

/-- A row of seven elements and the same row followed by five more positions. -/
theorem NewCandle_depends_on_first_seven_witness :
    NewCandle refLib ⟨0⟩ "BTCUSDT" (goodRow 1) =
      NewCandle refLib ⟨0⟩ "BTCUSDT"
        (goodRow 1 ++ [.string "250.0", .number ⟨3, 0⟩, .string "60.0", .string "90.0",
          .string "0"]) :=
  NewCandle_depends_on_first_seven refLib ⟨0⟩ "BTCUSDT" (goodRow 1)
    (goodRow 1 ++ [.string "250.0", .number ⟨3, 0⟩, .string "60.0", .string "90.0",
      .string "0"]) (by decide) (by decide) rfl

/-- The time `parseTimeFn` returns next to an error is dropped by the caller:
the error itself does not depend on the clock. -/
theorem parseTimeFn_clock (lib : Lib F) (now now2 : Time) (v : JSON F) :
    (parseTimeFn lib now v).2 = (parseTimeFn lib now2 v).2 ∧
    ((parseTimeFn lib now v).2 = none → parseTimeFn lib now v = parseTimeFn lib now2 v) := by
  cases v <;> simp [parseTimeFn]

/-- C17: the result of `NewCandle`, candle or error or panic, is the same for
every reading of the wall clock, although `parseTimeFn` returns the current
time next to its error. -/
theorem NewCandle_clock_independent (lib : Lib F) (now now2 : Time) (symbol : String)
    (item : List (JSON F)) :
    NewCandle lib now symbol item = NewCandle lib now2 symbol item ∧
    (parseTimeFn lib now (.null : JSON F)).1 = now := by
  refine ⟨?_, rfl⟩
  simp only [NewCandle, Go.bind]
  cases index item 0 with
  | panic p => rfl
  | ret v0 =>
    cases v0 <;> first
      | rfl
      | (simp only [parseTimeFn]
         cases index item 6 with
          | panic p => rfl
          | ret v6 => cases v6 <;> rfl)

/-! ## The order of the checks in `NewCandle` -/

/-- The text of an error of a field check contains the rendering of the value
that was checked. -/
theorem fieldCheck_error_text (lib : Lib F) (now : Time) (k : Nat) (val : JSON F)
    (e : GoError F) (h : fieldCheck lib now k val = some e) :
    ∃ pre post, e.Error lib = pre ++ fmtV lib val ++ post := by
  unfold fieldCheck at h
  split at h
  · have hn : val.isNumber = false := by
      cases val <;> simp_all [parseTimeFn, JSON.isNumber]
    rw [parseTimeFn_not_number lib now val hn] at h
    simp only [Option.some.injEq] at h
    subst h
    exact ⟨"couldn't parse time, ", "", by simp [GoError.Error]⟩
  · cases val with
    | string s =>
      cases hp : lib.ParseFloat s with
      | ok f => simp [parseFloatFn, hp] at h
      | error err =>
        simp only [parseFloatFn, hp, Option.some.injEq] at h
        subst h
        exact ⟨"couldn't parse float64, ", ", err: " ++ err,
          by simp [GoError.Error, String.append_assoc]⟩
    | _ =>
      simp only [parseFloatFn, Option.some.injEq] at h
      subst h
      exact ⟨"couldn't parse float64, ", "", by simp [GoError.Error]⟩

/-- C19: on a row of at least seven elements, when the position `k` that
stands at place `i` of the check order 0, 6, 1, 4, 2, 3, 5 holds an invalid
value and every position that stands before it in that order holds a valid
one, `NewCandle` returns the error of position `k`, whatever the positions
checked later hold; the text of that error contains the rendering of the
offending value. -/
theorem NewCandle_reports_first_invalid (lib : Lib F) (now : Time) (symbol : String)
    (item : List (JSON F)) (i k : Nat) (val : JSON F) (e : GoError F)
    (hlen : 7 ≤ item.length)
    (hk : checkOrder.get? i = some k)
    (hvalid : ∀ j ∈ checkOrder.take i, ∀ v, item.get? j = some v →
      fieldCheck lib now j v = none)
    (hval : item.get? k = some val)
    (hinvalid : fieldCheck lib now k val = some e) :
    NewCandle lib now symbol item = .ret (none, some e) ∧
    ∃ pre post, e.Error lib = pre ++ fmtV lib val ++ post := by
  refine ⟨?_, fieldCheck_error_text lib now k val e hinvalid⟩
  obtain ⟨a0, a1, a2, a3, a4, a5, a6, rest, rfl⟩ := exists_seven item hlen
  have hi : i < 7 := by
    have := (List.get?_eq_some.mp hk).1
    simpa [checkOrder] using this
  rw [NewCandle_seven]
  interval_cases i <;> simp [checkOrder] at hk <;> subst hk <;>
    simp [checkOrder, fieldCheck] at hvalid hval hinvalid <;> subst hval <;>
    (repeat' split) <;> simp_all

/-- A row with an invalid open price and an invalid close time: the close
time is checked first and its error, which shows the value `x`, is returned. -/
theorem NewCandle_reports_first_invalid_witness :
    NewCandle refLib ⟨0⟩ "BTCUSDT" twoInvalidRow =
      .ret (none, some (.parseTime (.string "x"))) ∧
    ∃ pre post, GoError.Error refLib (.parseTime (.string "x")) =
      pre ++ fmtV refLib (.string "x") ++ post :=
  NewCandle_reports_first_invalid refLib ⟨0⟩ "BTCUSDT" twoInvalidRow 1 6 (.string "x")
    (.parseTime (.string "x")) (by decide) rfl
    (by
      intro j hj v hv
      simp only [checkOrder, List.take_succ_cons, List.take_zero, List.mem_singleton] at hj
      subst hj
      simp only [twoInvalidRow, List.get?, Option.some.injEq] at hv
      subst hv
      rfl)
    rfl rfl

/-- The text of the error of `twoInvalidRow`. -/
theorem twoInvalidRow_error_text :
    GoError.Error refLib (.parseTime (.string "x")) = "couldn't parse time, x" ∧
    GoError.Error refLib (.parseFloatType (.number ⟨5, 0⟩)) = "couldn't parse float64, 5" := by
  constructor <;> decide

/-! ## Strict failure and short rows -/

/-- C3 (failing input): the payload `[[1], ["x", "1.0", ...]]` decodes into two
rows. The second row fails to decode: `NewCandle` returns the error
`couldn't parse time, x` for it. The first row has one element and
`NewCandle` panics on it at `item[6]`, so `LoadCandles` panics before it
reaches the failing row: it returns neither a nil slice nor an error. -/
theorem LoadCandles_panics_before_failing_row :
    UnmarshalRows refLib
      (get refLib (serverReplying 200 shortThenBadText) (klinesPath "BTCUSDT" [])).data =
      ([[.number ⟨1, 0⟩], badTimeRow], none) ∧
    NewCandle refLib ⟨0⟩ "BTCUSDT" badTimeRow = .ret (none, some (.parseTime (.string "x"))) ∧
    NewCandle refLib ⟨0⟩ "BTCUSDT" [.number ⟨1, 0⟩] = .panic (.indexOutOfRange 6 1) ∧
    LoadCandles refLib ⟨0⟩ (serverReplying 200 shortThenBadText) "BTCUSDT" [] =
      .panic (.indexOutOfRange 6 1) :=
  ⟨rfl, rfl, rfl, rfl⟩

end BinanceFutures
